import Mathlib

/-!
Verification of the dc-hungry unscramble bot against its specification.

The development shallowly embeds the Python sources:
* `config.py` — constants (note that line 16, the definition of
  HINT_PENALTY_POINTS, is commented out in the source; a Python attribute
  access on the config module therefore raises AttributeError, which we
  model by making the constant an `Option` that is `none`).
* `cogs/unscramble.py` — word loading, the start command, the hint
  command, the answer-evaluating message listener, the timeout task.
* `cogs/admin.py` — the stop command.
* `cogs/database.py` — the score store with dirty-flag tracking.

Wall-clock timestamps (Python floats from time.time()) are modelled as
integers (integral seconds suffice for every comparison the code makes).  Cooperative scheduling is modelled by a step function over an
explicit action type; the timeout task, whose body contains two genuine
suspension points (the sleep and the notice send), is split into a wake
step and a resume step exactly at its send suspension, while command
handlers whose mutating sections contain no awaits are single steps.
The model clock strictly increases by one at every scheduled step,
reflecting the strictly increasing wall clock between event-loop turns.
-/

namespace DcHungry

/-! Constants from config.py. -/

def TIME_LIMIT_SECONDS : ℤ := 60

def STUCK_GAME_TIMEOUT_SECONDS : ℤ := 300

/-- Line 16 of config.py reads `#HINT_PENALTY_POINTS = 10`: the assignment is
commented out, so the attribute does not exist on the config module and
every access to it raises AttributeError.  Modelled as an absent optional
value. -/
def HINT_PENALTY_POINTS : Option ℕ := none

/-! Word loading (cogs/unscramble.py, _load_words, lines 31-45). -/

/-- Possible outcomes of opening and reading the word file. -/
inductive WordFileOutcome where
  | fileMissing
  | readFailure
  | content (lines : List String)

/-- Python str.strip(): remove leading and trailing whitespace. -/
def pyStrip (l : List Char) : List Char :=
  ((l.dropWhile Char.isWhitespace).reverse.dropWhile Char.isWhitespace).reverse

/-- Python str.upper() (over the letters the bot deals in). -/
def pyUpper (l : List Char) : List Char := l.map Char.toUpper

/-- Embedding of _load_words: strip and uppercase the non-blank lines; fall
back to the single word DEFAULT when the file is missing, unreadable, or
yields no words. -/
def loadWords : WordFileOutcome → List String
  | .fileMissing => ["DEFAULT"]
  | .readFailure => ["DEFAULT"]
  | .content lines =>
      let ws := (lines.filter (fun l => pyStrip l.data ≠ [])).map
        (fun l => String.mk (pyUpper (pyStrip l.data)))
      if ws = [] then ["DEFAULT"] else ws

/-! Scrambling (cogs/unscramble.py, unscramble command, lines 159-166).
random.shuffle is modelled by an oracle giving, for each retry index, the
rearrangement it produces; a faithful oracle always returns a permutation
of its input. -/

/-- One round of the retry loop: while the current letters still spell the
original word and retries remain, shuffle once more.  The loop only ever
shuffles a list that currently equals the original, because it stops as
soon as the letters differ. -/
def shuffleLoop (oracle : ℕ → List Char → List Char) (original : List Char) :
    ℕ → ℕ → List Char → List Char
  | _, 0, letters => letters
  | retry, fuel + 1, letters =>
      if letters = original then
        shuffleLoop oracle original (retry + 1) fuel (oracle retry letters)
      else letters

/-- Embedding of lines 159-166: words of length at most one are returned
unchanged; longer words go through the bounded retry loop (at most 5
shuffles). -/
def scrambleWord (oracle : ℕ → List Char → List Char) (word : List Char) :
    List Char :=
  if word.length > 1 then shuffleLoop oracle word 0 5 word else word

/-! The game session data model (the game_data dict, lines 169-178). -/

structure GameSession where
  word : String
  scrambled : String
  start_time : ℤ
  hints_given : ℕ
  revealed_indices : Finset ℕ
  hint_requested_by : List String
  timeout_task : Option ℕ
deriving DecidableEq

/-- Phases of the background timeout task (_game_timeout_task): sleeping in
asyncio.sleep; past the generation check with the notice send in flight;
finished (returned, whether stale or after the removal); cancelled. -/
inductive TaskPhase where
  | sleeping
  | sending
  | finished
  | cancelled
deriving DecidableEq

structure TimeoutTask where
  gen : ℤ
  word : String
  phase : TaskPhase
deriving DecidableEq

/-- Messages the bot sends to the chat surface, tagged where relevant with
the generation (start_time) of the session that produced them. -/
inductive Event where
  | startedNotice (scrambled : String)
  | alreadyActiveNotice (scrambled : String)
  | stuckClearedNotice
  | noWordsError
  | genericStartError
  | timeoutNotice (gen : ℤ) (word : String)
  | winNotice (gen : ℤ) (user : String) (points : ℕ)
  | lateNotice (gen : ℤ) (word : String)
  | stoppedNotice (gen : ℤ) (word : String)
  | notActiveNotice
  | noGameNotice
  | noMoreHintsNotice
  | hintNotice (gen : ℤ) (idx : ℕ)
deriving DecidableEq

/-- State of one channel's slice of the system: the active_games entry for
the channel, every timeout task ever created for it (identified by list
index), the score store cache, and the model wall clock. -/
structure SysState where
  active : Option GameSession
  tasks : List TimeoutTask
  scores : List (String × ℤ)
  clock : ℤ
deriving DecidableEq

/-- Cancelling a task handle as the source does everywhere: only when the
handle exists and the task is not done.  A sleeping or mid-send task
receives CancelledError at its next resumption and unwinds, modelled by
the cancelled phase; an already-finished or already-cancelled task is left
untouched. -/
def cancelTask : Option ℕ → List TimeoutTask → List TimeoutTask
  | none, tasks => tasks
  | some i, tasks =>
      match tasks.get? i with
      | none => tasks
      | some t =>
          if t.phase = .sleeping ∨ t.phase = .sending then
            tasks.set i { t with phase := .cancelled }
          else tasks

/-! Score store update (cogs/database.py, update_score, lines 85-93). -/

def updateScore (scores : List (String × ℤ)) (user : String) (pts : ℕ) :
    List (String × ℤ) :=
  let cur := ((scores.lookup user).getD 0)
  (user, cur + pts) :: scores.filter (fun p => p.1 ≠ user)

/-! Points tiers (cogs/unscramble.py, on_message, lines 305-307). -/

def basePoints (t : ℤ) : ℕ :=
  if t ≤ 2 then 100 else if t ≤ 5 then 75 else 50

/-! Hint bookkeeping (cogs/unscramble.py, hint command, line 236). -/

def maxHints (word : String) : ℕ :=
  if word.length > 1 then max 1 (word.length / 2) else 0

/-! Answer normalisation (on_message, line 295):
message.content.strip().upper(). -/

def normalizeAnswer (s : String) : String := String.mk (pyUpper (pyStrip s.data))

/-! The start command (cogs/unscramble.py, unscramble, lines 111-215).
random.choice over the word list is modelled by an index oracle. -/

/-- Embedding of lines 147-215: the fresh-start part of the unscramble
command, entered when no (non-stuck) game occupies the channel.  Drawing
the word and building the scramble follow lines 154-166; the session dict
is registered at line 179; the announcement embed built at lines 181-188
interpolates config.HINT_PENALTY_POINTS, so its construction raises
AttributeError when that attribute is absent, landing in the handler of
lines 210-215 which sends a generic failure notice and deletes the
just-registered session.  When the attribute exists the announcement is
sent and the timeout task is created and stored (lines 189-208). -/
def freshStart (words : List String) (pick : ℕ)
    (shuffles : ℕ → List Char → List Char) (now : ℤ) (st : SysState) :
    SysState × List Event :=
  if words = [] then (st, [.noWordsError])
  else
    let w0 := words.getD (pick % words.length) ""
    let original_word := if w0 = "" then "DEFAULT" else w0
    let scrambled := String.mk (scrambleWord shuffles original_word.data)
    let sess : GameSession :=
      { word := original_word, scrambled := scrambled, start_time := now,
        hints_given := 0, revealed_indices := ∅, hint_requested_by := [],
        timeout_task := none }
    let st1 := { st with active := some sess }
    match HINT_PENALTY_POINTS with
    | some _ =>
        let tid := st1.tasks.length
        let st2 := { st1 with
          tasks := st1.tasks ++ [⟨now, original_word, .sleeping⟩],
          active := some { sess with timeout_task := some tid } }
        (st2, [.startedNotice scrambled])
    | none =>
        ({ st1 with active := none }, [.genericStartError])

/-- Embedding of the unscramble command (lines 111-215).  A channel with an
existing session either reports the game in progress (age within
STUCK_GAME_TIMEOUT_SECONDS, lines 138-145) or, when the session is stuck
(strictly older, lines 118-137), announces the cleanup, cancels the old
timeout task, removes the session and proceeds to a fresh start. -/
def unscrambleCmd (words : List String) (pick : ℕ)
    (shuffles : ℕ → List Char → List Char) (now : ℤ) (st : SysState) :
    SysState × List Event :=
  match st.active with
  | some g =>
      if now - g.start_time > STUCK_GAME_TIMEOUT_SECONDS then
        let st1 := { st with tasks := cancelTask g.timeout_task st.tasks,
                             active := none }
        let r := freshStart words pick shuffles now st1
        (r.1, .stuckClearedNotice :: r.2)
      else (st, [.alreadyActiveNotice g.scrambled])
  | none => freshStart words pick shuffles now st

/-! The hint command (cogs/unscramble.py, hint, lines 222-269).
random.choice over the unrevealed indices is modelled by an index
oracle. -/

/-- Embedding of the reveal block of the hint command (lines 249-268),
acting on the live session dict (already updated with the requester): a
not-yet-revealed index is drawn and recorded and the hint counter
incremented (lines 249-257), after which the hint embed of lines 261-267
interpolates config.HINT_PENALTY_POINTS and its construction raises
AttributeError before the send at line 268, so the mutations stand but no
hint message is emitted.  (The empty-available safety branch at lines
250-253 likewise dies building its embed, on the misspelled
discord.EMBED_COLOR_INFO, so it too emits nothing.)  Were the attribute
present, the hint notice would be sent. -/
def hintReveal (g1 : GameSession) (pick : ℕ) : GameSession × List Event :=
  let available :=
    (List.range g1.word.length).filter (fun i => i ∉ g1.revealed_indices)
  if available = [] then (g1, [])
  else
    let idx := available.getD (pick % available.length) 0
    let g2 := { g1 with
      revealed_indices := insert idx g1.revealed_indices,
      hints_given := g1.hints_given + 1 }
    match HINT_PENALTY_POINTS with
    | some _ => (g2, [.hintNotice g2.start_time idx])
    | none => (g2, [])

/-- Embedding of the hint command (lines 222-247): with no active game a
no-game notice is sent (lines 227-230); with the hint budget exhausted a
no-more-hints notice is sent (lines 238-241); otherwise the requester is
recorded once (lines 244-245) and the reveal block of hintReveal runs on
the updated session. -/
def hintCmd (user : String) (pick : ℕ) (st : SysState) :
    SysState × List Event :=
  match st.active with
  | none => (st, [.noGameNotice])
  | some g =>
      if g.hints_given ≥ maxHints g.word then (st, [.noMoreHintsNotice])
      else
        let g1 := if user ∈ g.hint_requested_by then g
                  else { g with hint_requested_by := user :: g.hint_requested_by }
        let r := hintReveal g1 pick
        ({ st with active := some r.1 }, r.2)

/-! The answer evaluator (cogs/unscramble.py, on_message, lines 274-381). -/

/-- Embedding of the message listener.  Bot or non-guild messages are
ignored (line 277), as are messages on channels with no game (line 283)
and command-prefixed messages (line 285).  A message whose stripped,
uppercased content equals the word is scored: within the time limit and
with no hint on record for the author, the tier points are awarded, the
score store updated, the win notice sent, the timeout task cancelled and
the session removed (lines 303-357); within the limit but with a hint on
record, line 311 multiplies config.HINT_PENALTY_POINTS, whose absence
raises AttributeError out of the listener before any scoring, emission or
removal (were it present, the penalised win path would run); past the
limit, the too-slow notice is sent, the task cancelled and the session
removed with no score change (lines 360-381). -/
def messageStep (author content : String) (fromBot inGuild isCmd : Bool)
    (now : ℤ) (st : SysState) : SysState × List Event :=
  if fromBot ∨ ¬inGuild then (st, [])
  else
    match st.active with
    | none => (st, [])
    | some g =>
        if isCmd then (st, [])
        else if normalizeAnswer content = g.word then
          let time_taken := now - g.start_time
          if time_taken ≤ TIME_LIMIT_SECONDS then
            if author ∈ g.hint_requested_by then
              match HINT_PENALTY_POINTS with
              | some p =>
                  let pts := basePoints time_taken - p * g.hints_given
                  ({ st with active := none,
                             tasks := cancelTask g.timeout_task st.tasks,
                             scores := updateScore st.scores author pts },
                   [.winNotice g.start_time author pts])
              | none => (st, [])
            else
              let pts := basePoints time_taken
              ({ st with active := none,
                         tasks := cancelTask g.timeout_task st.tasks,
                         scores := updateScore st.scores author pts },
               [.winNotice g.start_time author pts])
          else
            ({ st with active := none,
                       tasks := cancelTask g.timeout_task st.tasks },
             [.lateNotice g.start_time g.word])
        else (st, [])

/-! The timeout task (cogs/unscramble.py, _game_timeout_task, lines
59-104), split at its two suspension points. -/

/-- Wake step: the sleep of line 63 has elapsed (only schedulable once the
clock has passed the task's generation plus the time limit) and the body
runs up to its next suspension.  If the channel's current session exists
and carries the generation this task was created with (line 70), the
time's-up notice naming the captured word goes out (lines 74-90) and the
task is now suspended inside that send; otherwise the firing is stale and
the task finishes without touching anything (lines 95-97). -/
def timeoutWake (tid : ℕ) (st : SysState) : SysState × List Event :=
  match st.tasks.get? tid with
  | none => (st, [])
  | some t =>
      if t.phase = .sleeping ∧ t.gen + TIME_LIMIT_SECONDS ≤ st.clock then
        match st.active with
        | some g =>
            if g.start_time = t.gen then
              ({ st with tasks := st.tasks.set tid { t with phase := .sending } },
               [.timeoutNotice t.gen t.word])
            else
              ({ st with tasks := st.tasks.set tid { t with phase := .finished } },
               [])
        | none =>
            ({ st with tasks := st.tasks.set tid { t with phase := .finished } },
             [])
      else (st, [])

/-- Resume step: the send of line 84 has completed and line 93 deletes the
channel's active_games entry unconditionally (a KeyError on an
already-removed entry is swallowed by the handler of lines 102-104, with
the same net state). -/
def timeoutResume (tid : ℕ) (st : SysState) : SysState × List Event :=
  match st.tasks.get? tid with
  | none => (st, [])
  | some t =>
      if t.phase = .sending then
        ({ st with active := none,
                   tasks := st.tasks.set tid { t with phase := .finished } },
         [])
      else (st, [])

/-! The stop command (cogs/admin.py, stop_game, lines 65-123).  Its
check-cancel-remove section (lines 85-108) contains no awaits and is a
single step; the confirmation send follows the removal. -/

def stopCmd (st : SysState) : SysState × List Event :=
  match st.active with
  | none => (st, [.notActiveNotice])
  | some g =>
      ({ st with active := none, tasks := cancelTask g.timeout_task st.tasks },
       [.stoppedNotice g.start_time g.word])

/-! The scheduler: one step runs one ready task segment to its next
suspension, and the wall clock strictly increases between steps. -/

inductive Act where
  | startGame (pick : ℕ) (shuffles : ℕ → List Char → List Char)
  | stopGame
  | hintReq (user : String) (pick : ℕ)
  | msg (author content : String) (fromBot inGuild isCmd : Bool)
  | wake (tid : ℕ)
  | resume (tid : ℕ)

def step (words : List String) (a : Act) (st : SysState) :
    SysState × List Event :=
  let r :=
    match a with
    | .startGame pick sh => unscrambleCmd words pick sh st.clock st
    | .stopGame => stopCmd st
    | .hintReq u p => hintCmd u p st
    | .msg a c fb g i => messageStep a c fb g i st.clock st
    | .wake tid => timeoutWake tid st
    | .resume tid => timeoutResume tid st
  ({ r.1 with clock := st.clock + 1 }, r.2)

def run (words : List String) : List Act → SysState → SysState × List Event
  | [], st => (st, [])
  | a :: as, st =>
      let r := step words a st
      let r2 := run words as r.1
      (r2.1, r.2 ++ r2.2)

/-! The score store with throttled persistence (cogs/database.py). -/

/-- In-memory leaderboard cache plus persistence bookkeeping: the dirty
flag of line 26, and the last successfully persisted snapshot (the Replit
DB value written at line 127). -/
structure DbState where
  leaderboard : List (String × ℤ)
  dirty : Bool
  persisted : Option (List (String × ℤ))
deriving DecidableEq

/-- Embedding of _save_leaderboard (lines 114-135): under the save lock,
return immediately when the dirty flag is clear (lines 118-120, no
persistence access at all); otherwise attempt the DB write of a copy of
the leaderboard (line 127), whose success is modelled by the writeOk
oracle.  On success the dirty flag is reset (line 132); on failure the
exception is caught and logged and the dirty flag deliberately left set
(lines 133-135), so the method returns normally either way.  The returned
Bool records whether a persistence write was attempted. -/
def saveLeaderboard (writeOk : Bool) (db : DbState) : DbState × Bool :=
  if ¬db.dirty then (db, false)
  else if writeOk then
    ({ db with persisted := some db.leaderboard, dirty := false }, true)
  else (db, true)

/-- Embedding of one iteration of _periodic_save_task (lines 148-155):
after the sleep, save only if the data changed. -/
def periodicTick (writeOk : Bool) (db : DbState) : DbState × Bool :=
  if db.dirty then saveLeaderboard writeOk db else (db, false)

/-- Embedding of update_score (lines 85-93) at the DbState level: mutate
the in-memory cache and mark it dirty. -/
def updateScoreDb (db : DbState) (user : String) (pts : ℕ) : DbState :=
  { db with leaderboard := updateScore db.leaderboard user pts, dirty := true }

/-! Helper lemmas about the retry loop of the scrambler. -/

lemma shuffleLoop_fixed (oracle : ℕ → List Char → List Char)
    (original : List Char) (retry fuel : ℕ) (letters : List Char)
    (h : letters ≠ original) :
    shuffleLoop oracle original retry fuel letters = letters := by
  cases fuel <;> simp [shuffleLoop, h]

lemma shuffleLoop_perm (oracle : ℕ → List Char → List Char)
    (hor : ∀ n l, List.Perm (oracle n l) l) (original : List Char) :
    ∀ fuel retry letters, letters.Perm original →
      (shuffleLoop oracle original retry fuel letters).Perm original := by
  intro fuel
  induction fuel with
  | zero => intro retry letters h; simpa [shuffleLoop] using h
  | succ n ih =>
      intro retry letters h
      by_cases he : letters = original
      · rw [show shuffleLoop oracle original retry (n + 1) letters
              = shuffleLoop oracle original (retry + 1) n (oracle retry letters) by
            simp [shuffleLoop, he]]
        exact ih (retry + 1) (oracle retry letters) ((hor retry letters).trans h)
      · rw [shuffleLoop_fixed oracle original retry (n + 1) letters he]
        exact h

lemma shuffleLoop_ne_iff (oracle : ℕ → List Char → List Char)
    (original : List Char) :
    ∀ fuel retry,
      shuffleLoop oracle original retry fuel original ≠ original
        ↔ ∃ k < fuel, oracle (retry + k) original ≠ original := by
  intro fuel
  induction fuel with
  | zero => intro retry; simp [shuffleLoop]
  | succ n ih =>
      intro retry
      by_cases h0 : oracle retry original = original
      · rw [show shuffleLoop oracle original retry (n + 1) original
              = shuffleLoop oracle original (retry + 1) n (oracle retry original) by
            simp [shuffleLoop]]
        rw [h0, ih (retry + 1)]
        constructor
        · rintro ⟨k, hk, hne⟩
          exact ⟨k + 1, by omega, by
            rwa [show retry + (k + 1) = retry + 1 + k by omega]⟩
        · rintro ⟨k, hk, hne⟩
          cases k with
          | zero => exact absurd h0 (by simpa using hne)
          | succ k =>
              exact ⟨k, by omega, by
                rwa [show retry + 1 + k = retry + (k + 1) by omega]⟩
      · have hfix : shuffleLoop oracle original retry (n + 1) original
            = oracle retry original := by
          rw [show shuffleLoop oracle original retry (n + 1) original
              = shuffleLoop oracle original (retry + 1) n (oracle retry original) by
            simp [shuffleLoop]]
          exact shuffleLoop_fixed oracle original (retry + 1) n _ h0
        rw [hfix]
        exact ⟨fun _ => ⟨0, by omega, by simpa using h0⟩, fun _ => h0⟩

lemma freshStart_no_noWords (words : List String) (pick : ℕ)
    (sh : ℕ → List Char → List Char) (now : ℤ) (st : SysState)
    (h : words ≠ []) :
    Event.noWordsError ∉ (freshStart words pick sh now st).2 := by
  unfold freshStart
  rw [if_neg h]
  simp [HINT_PENALTY_POINTS]

/-- Claim C6 (counterexample): the claim asserts that for a word of length
greater than one with at least two distinct letters, the bounded retry
loop always ends with a scramble different from the original.  The word
AB has two distinct letters, yet when every shuffle draw happens to
reproduce the current arrangement (the identity rearrangement, a
legitimate output of random.shuffle), the loop exhausts its five retries
and returns the original word unchanged. -/
theorem C6_scramble_may_equal_original :
    scrambleWord (fun _ l => l) ['A', 'B'] = ['A', 'B'] ∧
    ('A' : Char) ≠ 'B' ∧ (['A', 'B'] : List Char).length > 1 := by
  decide

/-- Claim C6 (amended): for every shuffle oracle that returns permutations,
the scramble is a permutation of the word's letters; and for a word of
length greater than one the scramble differs from the original exactly
when at least one of the five shuffle draws (each applied to the original
arrangement, since the loop stops at the first differing draw) differs
from the original — so a differing scramble is possible but not
guaranteed within the retry budget. -/
theorem C6_scramble_perm_and_differs_iff (oracle : ℕ → List Char → List Char)
    (word : List Char) (hor : ∀ n l, List.Perm (oracle n l) l) :
    (scrambleWord oracle word).Perm word ∧
    (word.length > 1 →
      (scrambleWord oracle word ≠ word ↔ ∃ k < 5, oracle k word ≠ word)) := by
  constructor
  · unfold scrambleWord
    split
    · exact shuffleLoop_perm oracle hor word 5 0 word (List.Perm.refl word)
    · exact List.Perm.refl word
  · intro hlen
    unfold scrambleWord
    rw [if_pos hlen]
    simpa using shuffleLoop_ne_iff oracle word 5 0

/-- Witness for C6: the amended theorem applied to the reversal oracle and
the word AB. -/
theorem C6_scramble_witness :
    (scrambleWord (fun _ l => l.reverse) ['A', 'B']).Perm ['A', 'B'] ∧
    ((['A', 'B'] : List Char).length > 1 →
      (scrambleWord (fun _ l => l.reverse) ['A', 'B'] ≠ ['A', 'B']
        ↔ ∃ k < 5,
            (fun (_ : ℕ) (l : List Char) => l.reverse) k ['A', 'B'] ≠ ['A', 'B'])) :=
  C6_scramble_perm_and_differs_iff (fun _ l => l.reverse) ['A', 'B']
    (fun _ l => l.reverse_perm)

/-- Claim C9: the save operation performs no persistence write at all when
the dirty flag is clear; a failed save attempt leaves the state (and in
particular the dirty flag) untouched and returns normally (the source
catches the exception, so it never propagates), and the next periodic
tick therefore re-attempts the write, which on success persists the
leaderboard snapshot and clears the flag. -/
theorem C9_save_dirty_tracking (db : DbState) :
    (db.dirty = false → ∀ ok, saveLeaderboard ok db = (db, false)) ∧
    (db.dirty = true →
      saveLeaderboard false db = (db, true) ∧
      periodicTick true (saveLeaderboard false db).1
        = ({ db with persisted := some db.leaderboard, dirty := false }, true)) := by
  refine ⟨fun h ok => ?_, fun h => ⟨?_, ?_⟩⟩
  · simp [saveLeaderboard, h]
  · simp [saveLeaderboard, h]
  · simp [saveLeaderboard, periodicTick, h]

/-- Witness for C9: a dirty store with one entry; the failed save changes
nothing and the next successful tick persists the snapshot. -/
theorem C9_witness :
    (⟨[("u1", 75)], true, none⟩ : DbState).dirty = true ∧
    saveLeaderboard false ⟨[("u1", 75)], true, none⟩
      = (⟨[("u1", 75)], true, none⟩, true) ∧
    periodicTick true (saveLeaderboard false ⟨[("u1", 75)], true, none⟩).1
      = (⟨[("u1", 75)], false, some [("u1", 75)]⟩, true) :=
  ⟨rfl, (C9_save_dirty_tracking ⟨[("u1", 75)], true, none⟩).2 rfl⟩

/-- Claim C10: whatever the word file contains, loading always yields a
non-empty in-memory list (falling back to the single word DEFAULT), so
the start command run against a loaded list can never emit its
no-words-loaded error. -/
theorem C10_loaded_words_nonempty (o : WordFileOutcome) :
    loadWords o ≠ [] ∧
    ∀ (pick : ℕ) (sh : ℕ → List Char → List Char) (now : ℤ) (st : SysState),
      Event.noWordsError ∉ (unscrambleCmd (loadWords o) pick sh now st).2 := by
  have hne : loadWords o ≠ [] := by
    cases o with
    | fileMissing => simp [loadWords]
    | readFailure => simp [loadWords]
    | content lines =>
        simp only [loadWords]
        split
        · simp
        · assumption
  refine ⟨hne, fun pick sh now st => ?_⟩
  cases hg : st.active with
  | none =>
      simp only [unscrambleCmd, hg]
      exact freshStart_no_noWords _ _ _ _ _ hne
  | some g =>
      simp only [unscrambleCmd, hg]
      by_cases hstuck : now - g.start_time > STUCK_GAME_TIMEOUT_SECONDS
      · rw [if_pos hstuck]
        intro hmem
        simp only [List.mem_cons] at hmem
        rcases hmem with h | h
        · exact Event.noConfusion h
        · exact freshStart_no_noWords _ _ _ _ _ hne h
      · rw [if_neg hstuck]
        simp

/-- Claim C2 (code evaluated at the failing input): on a channel with no
session and the non-empty word list APPLE, the start command does not
announce a scramble or keep a session: building the announcement embed
reads the absent config.HINT_PENALTY_POINTS, so the command lands in its
exception handler, reports a generic failure and deletes the session it
had just registered. -/
theorem C2_start_crashes_and_rolls_back :
    (["APPLE"] : List String) ≠ [] ∧
    unscrambleCmd ["APPLE"] 0 (fun _ l => l.reverse) 0 ⟨none, [], [], 0⟩
      = (⟨none, [], [], 0⟩, [.genericStartError]) := by
  decide

/-- Claim C8: starting a game on a channel whose active session is at most
STUCK_GAME_TIMEOUT_SECONDS old returns the whole state unchanged — every
session field, the task list and the score store — and reports the game
in progress with the existing scrambled word; no new session is
created. -/
theorem C8_already_active_frame (words : List String) (pick : ℕ)
    (sh : ℕ → List Char → List Char) (now : ℤ) (st : SysState)
    (g : GameSession) (hg : st.active = some g)
    (hage : now - g.start_time ≤ STUCK_GAME_TIMEOUT_SECONDS) :
    unscrambleCmd words pick sh now st = (st, [.alreadyActiveNotice g.scrambled]) := by
  unfold unscrambleCmd
  rw [hg]
  exact if_neg (not_lt.mpr hage)

/-! Generation-freshness machinery for the trace-level claims: sessions
are timestamped in the past (WF), and once a generation is dead (below
the clock and not carried by the active session) no schedule revives it
and no hint or timeout notice tagged with it is ever emitted again. -/

/-- Well-formedness of a state: the active session, if any, was created at
a strictly earlier clock reading. -/
def WF (st : SysState) : Prop :=
  ∀ g, st.active = some g → g.start_time < st.clock

/-- The generation gen is dead in st: in the past, and not the active
session's. -/
def NoGen (gen : ℤ) (st : SysState) : Prop :=
  gen < st.clock ∧ ∀ g, st.active = some g → g.start_time ≠ gen

lemma freshStart_shape (words : List String) (pick : ℕ)
    (sh : ℕ → List Char → List Char) (now : ℤ) (st : SysState) :
    ((freshStart words pick sh now st).1.active = st.active ∨
      (freshStart words pick sh now st).1.active = none) ∧
    ((freshStart words pick sh now st).2 = [.noWordsError] ∨
      (freshStart words pick sh now st).2 = [.genericStartError]) := by
  unfold freshStart
  split
  · exact ⟨Or.inl rfl, Or.inl rfl⟩
  · simp [HINT_PENALTY_POINTS]

lemma unscrambleCmd_shape (words : List String) (pick : ℕ)
    (sh : ℕ → List Char → List Char) (now : ℤ) (st : SysState) :
    ((unscrambleCmd words pick sh now st).1.active = st.active ∨
      (unscrambleCmd words pick sh now st).1.active = none) ∧
    (∀ e ∈ (unscrambleCmd words pick sh now st).2,
      (∀ gn w, e ≠ .timeoutNotice gn w) ∧ (∀ gn i, e ≠ .hintNotice gn i)) := by
  cases hact : st.active with
  | none =>
      have heq : unscrambleCmd words pick sh now st
          = freshStart words pick sh now st := by
        simp [unscrambleCmd, hact]
      rw [heq]
      obtain ⟨h1, h2⟩ := freshStart_shape words pick sh now st
      rw [hact] at h1
      refine ⟨h1, fun e he => ?_⟩
      rcases h2 with h | h <;> rw [h] at he <;> simp at he <;> subst he <;>
        exact ⟨fun gn w h => Event.noConfusion h, fun gn i h => Event.noConfusion h⟩
  | some g =>
      by_cases hstuck : now - g.start_time > STUCK_GAME_TIMEOUT_SECONDS
      · have heq : unscrambleCmd words pick sh now st
            = ((freshStart words pick sh now
                { st with tasks := cancelTask g.timeout_task st.tasks,
                          active := none }).1,
               .stuckClearedNotice :: (freshStart words pick sh now
                { st with tasks := cancelTask g.timeout_task st.tasks,
                          active := none }).2) := by
          simp [unscrambleCmd, hact, hstuck]
        rw [heq]
        obtain ⟨h1, h2⟩ := freshStart_shape words pick sh now
          { st with tasks := cancelTask g.timeout_task st.tasks, active := none }
        constructor
        · right
          rcases h1 with h | h
          · exact h
          · exact h
        · intro e he
          rcases List.mem_cons.mp he with rfl | he
          · exact ⟨fun gn w h => Event.noConfusion h,
              fun gn i h => Event.noConfusion h⟩
          · rcases h2 with h | h <;> rw [h] at he <;> simp at he <;> subst he <;>
              exact ⟨fun gn w h => Event.noConfusion h,
                fun gn i h => Event.noConfusion h⟩
      · have heq : unscrambleCmd words pick sh now st
            = (st, [.alreadyActiveNotice g.scrambled]) := by
          simp [unscrambleCmd, hact, hstuck]
        rw [heq]
        refine ⟨Or.inl hact, fun e he => ?_⟩
        simp at he
        subst he
        exact ⟨fun gn w h => Event.noConfusion h,
          fun gn i h => Event.noConfusion h⟩

lemma stopCmd_shape (st : SysState) :
    ((stopCmd st).1.active = st.active ∨ (stopCmd st).1.active = none) ∧
    (∀ e ∈ (stopCmd st).2,
      (∀ gn w, e ≠ .timeoutNotice gn w) ∧ (∀ gn i, e ≠ .hintNotice gn i)) := by
  cases hact : st.active with
  | none =>
      have heq : stopCmd st = (st, [.notActiveNotice]) := by
        simp [stopCmd, hact]
      rw [heq]
      refine ⟨Or.inl hact, fun e he => ?_⟩
      simp at he
      subst he
      exact ⟨fun gn w h => Event.noConfusion h, fun gn i h => Event.noConfusion h⟩
  | some g =>
      have heq : stopCmd st
          = ({ st with active := none,
                       tasks := cancelTask g.timeout_task st.tasks },
             [.stoppedNotice g.start_time g.word]) := by
        simp [stopCmd, hact]
      rw [heq]
      refine ⟨Or.inr rfl, fun e he => ?_⟩
      simp at he
      subst he
      exact ⟨fun gn w h => Event.noConfusion h, fun gn i h => Event.noConfusion h⟩

lemma messageStep_shape (a c : String) (fb gu ic : Bool) (now : ℤ)
    (st : SysState) :
    ((messageStep a c fb gu ic now st).1.active = st.active ∨
      (messageStep a c fb gu ic now st).1.active = none) ∧
    (∀ e ∈ (messageStep a c fb gu ic now st).2,
      (∀ gn w, e ≠ .timeoutNotice gn w) ∧ (∀ gn i, e ≠ .hintNotice gn i)) := by
  by_cases h1 : fb = true ∨ ¬gu = true
  · have heq : messageStep a c fb gu ic now st = (st, []) := by
      rcases h1 with h | h <;> simp [messageStep, h]
    rw [heq]
    exact ⟨Or.inl rfl, by simp⟩
  push_neg at h1
  obtain ⟨hfb, hgu⟩ := h1
  have hfb2 : fb = false := by simpa using hfb
  cases hact : st.active with
  | none =>
      have heq : messageStep a c fb gu ic now st = (st, []) := by
        simp [messageStep, hfb2, hgu, hact]
      rw [heq]
      exact ⟨Or.inl hact, by simp⟩
  | some g =>
      by_cases hic : ic = true
      · have heq : messageStep a c fb gu ic now st = (st, []) := by
          simp [messageStep, hfb2, hgu, hact, hic]
        rw [heq]
        exact ⟨Or.inl hact, by simp⟩
      by_cases hans : normalizeAnswer c = g.word
      · by_cases htime : now - g.start_time ≤ TIME_LIMIT_SECONDS
        · by_cases hhint : a ∈ g.hint_requested_by
          · have heq : messageStep a c fb gu ic now st = (st, []) := by
              simp [messageStep, hfb2, hgu, hact, hic, hans, htime, hhint,
                HINT_PENALTY_POINTS]
            rw [heq]
            exact ⟨Or.inl hact, by simp⟩
          · have heq : messageStep a c fb gu ic now st
                = (⟨none, cancelTask g.timeout_task st.tasks,
                    updateScore st.scores a (basePoints (now - g.start_time)),
                    st.clock⟩,
                   [.winNotice g.start_time a
                      (basePoints (now - g.start_time))]) := by
              simp [messageStep, hfb2, hgu, hact, hic, hans, htime, hhint]
            rw [heq]
            refine ⟨Or.inr rfl, fun e he => ?_⟩
            simp at he
            subst he
            exact ⟨fun gn w h => Event.noConfusion h,
              fun gn i h => Event.noConfusion h⟩
        · have heq : messageStep a c fb gu ic now st
              = (⟨none, cancelTask g.timeout_task st.tasks, st.scores,
                  st.clock⟩,
                 [.lateNotice g.start_time g.word]) := by
            simp [messageStep, hfb2, hgu, hact, hic, hans, htime]
          rw [heq]
          refine ⟨Or.inr rfl, fun e he => ?_⟩
          simp at he
          subst he
          exact ⟨fun gn w h => Event.noConfusion h,
            fun gn i h => Event.noConfusion h⟩
      · have heq : messageStep a c fb gu ic now st = (st, []) := by
          simp [messageStep, hfb2, hgu, hact, hic, hans]
        rw [heq]
        exact ⟨Or.inl hact, by simp⟩

lemma hintReveal_events (g1 : GameSession) (p : ℕ) :
    (hintReveal g1 p).2 = [] := by
  simp only [hintReveal, HINT_PENALTY_POINTS]
  split <;> rfl

lemma hintReveal_start_time (g1 : GameSession) (p : ℕ) :
    (hintReveal g1 p).1.start_time = g1.start_time := by
  simp only [hintReveal, HINT_PENALTY_POINTS]
  split <;> rfl

lemma hintCmd_shape (u : String) (p : ℕ) (st : SysState) :
    ((hintCmd u p st).1.active = st.active ∨
      ∃ g g', st.active = some g ∧ (hintCmd u p st).1.active = some g' ∧
        g'.start_time = g.start_time) ∧
    (∀ e ∈ (hintCmd u p st).2,
      (∀ gn w, e ≠ .timeoutNotice gn w) ∧ (∀ gn i, e ≠ .hintNotice gn i)) := by
  cases hact : st.active with
  | none =>
      have heq : hintCmd u p st = (st, [.noGameNotice]) := by
        simp [hintCmd, hact]
      rw [heq]
      refine ⟨Or.inl hact, fun e he => ?_⟩
      simp at he
      subst he
      exact ⟨fun gn w h => Event.noConfusion h, fun gn i h => Event.noConfusion h⟩
  | some g =>
      by_cases hmax : g.hints_given ≥ maxHints g.word
      · have heq : hintCmd u p st = (st, [.noMoreHintsNotice]) := by
          simp [hintCmd, hact, hmax]
        rw [heq]
        refine ⟨Or.inl hact, fun e he => ?_⟩
        simp at he
        subst he
        exact ⟨fun gn w h => Event.noConfusion h, fun gn i h => Event.noConfusion h⟩
      · have heq : hintCmd u p st
            = ({ st with active := some (hintReveal
                  (if u ∈ g.hint_requested_by then g
                   else { g with hint_requested_by := u :: g.hint_requested_by })
                  p).1 },
               (hintReveal
                  (if u ∈ g.hint_requested_by then g
                   else { g with hint_requested_by := u :: g.hint_requested_by })
                  p).2) := by
          simp [hintCmd, hact, hmax]
        rw [heq]
        constructor
        · refine Or.inr ⟨g, _, rfl, rfl, ?_⟩
          rw [hintReveal_start_time]
          split <;> rfl
        · intro e he
          rw [show (({ st with active := some (hintReveal
                  (if u ∈ g.hint_requested_by then g
                   else { g with hint_requested_by := u :: g.hint_requested_by })
                  p).1 },
               (hintReveal
                  (if u ∈ g.hint_requested_by then g
                   else { g with hint_requested_by := u :: g.hint_requested_by })
                  p).2) : SysState × List Event).2 = (hintReveal _ p).2
              from rfl, hintReveal_events] at he
          cases he

lemma timeoutWake_active (tid : ℕ) (st : SysState) :
    (timeoutWake tid st).1.active = st.active := by
  unfold timeoutWake
  repeat' split
  all_goals rfl

lemma timeoutWake_emits (tid : ℕ) (st : SysState) :
    ∀ e ∈ (timeoutWake tid st).2,
      ∃ (t : TimeoutTask) (g : GameSession),
        st.active = some g ∧ g.start_time = t.gen ∧
        e = Event.timeoutNotice t.gen t.word := by
  unfold timeoutWake
  split
  · intro e he; cases he
  · split
    · rename_i t _ _
      split
      · rename_i g hact
        split
        · rename_i hgen
          intro e he
          simp at he
          subst he
          exact ⟨t, g, hact, hgen, rfl⟩
        · intro e he; cases he
      · intro e he; cases he
    · intro e he; cases he

lemma timeoutResume_shape (tid : ℕ) (st : SysState) :
    ((timeoutResume tid st).1.active = st.active ∨
      (timeoutResume tid st).1.active = none) ∧
    (timeoutResume tid st).2 = [] := by
  unfold timeoutResume
  repeat' split
  all_goals simp

lemma step_NoGen (words : List String) (a : Act) (gen : ℤ) (st : SysState)
    (h : NoGen gen st) :
    NoGen gen (step words a st).1 ∧
    (∀ w, Event.timeoutNotice gen w ∉ (step words a st).2) ∧
    (∀ i, Event.hintNotice gen i ∉ (step words a st).2) := by
  obtain ⟨hclock, hactive⟩ := h
  have hclock1 : gen < st.clock + 1 := by omega
  cases a with
  | startGame pick sh =>
      obtain ⟨h1, h2⟩ := unscrambleCmd_shape words pick sh st.clock st
      refine ⟨⟨hclock1, fun g hg => ?_⟩, fun w hw => ?_, fun i hi => ?_⟩
      · have hg' : (unscrambleCmd words pick sh st.clock st).1.active = some g := hg
        rcases h1 with h | h
        · exact hactive g (h ▸ hg')
        · rw [h] at hg'; cases hg'
      · exact ((h2 _ hw).1 gen w) rfl
      · exact ((h2 _ hi).2 gen i) rfl
  | stopGame =>
      obtain ⟨h1, h2⟩ := stopCmd_shape st
      refine ⟨⟨hclock1, fun g hg => ?_⟩, fun w hw => ?_, fun i hi => ?_⟩
      · have hg' : (stopCmd st).1.active = some g := hg
        rcases h1 with h | h
        · exact hactive g (h ▸ hg')
        · rw [h] at hg'; cases hg'
      · exact ((h2 _ hw).1 gen w) rfl
      · exact ((h2 _ hi).2 gen i) rfl
  | hintReq u p =>
      obtain ⟨h1, h2⟩ := hintCmd_shape u p st
      refine ⟨⟨hclock1, fun g hg => ?_⟩, fun w hw => ?_, fun i hi => ?_⟩
      · have hg' : (hintCmd u p st).1.active = some g := hg
        rcases h1 with h | ⟨g0, g0', hg0, hg0', hst⟩
        · exact hactive g (h ▸ hg')
        · rw [hg0'] at hg'
          injection hg' with hgg
          subst hgg
          rw [hst]
          exact hactive g0 hg0
      · exact ((h2 _ hw).1 gen w) rfl
      · exact ((h2 _ hi).2 gen i) rfl
  | msg a c fb gu ic =>
      obtain ⟨h1, h2⟩ := messageStep_shape a c fb gu ic st.clock st
      refine ⟨⟨hclock1, fun g hg => ?_⟩, fun w hw => ?_, fun i hi => ?_⟩
      · have hg' : (messageStep a c fb gu ic st.clock st).1.active = some g := hg
        rcases h1 with h | h
        · exact hactive g (h ▸ hg')
        · rw [h] at hg'; cases hg'
      · exact ((h2 _ hw).1 gen w) rfl
      · exact ((h2 _ hi).2 gen i) rfl
  | wake tid =>
      refine ⟨⟨hclock1, fun g hg => ?_⟩, fun w hw => ?_, fun i hi => ?_⟩
      · have hg' : (timeoutWake tid st).1.active = some g := hg
        rw [timeoutWake_active] at hg'
        exact hactive g hg'
      · obtain ⟨t, g, hact, hgen, heq⟩ := timeoutWake_emits tid st _ hw
        injection heq with h1 h2
        exact hactive g hact (hgen.trans h1.symm)
      · obtain ⟨t, g, hact, hgen, heq⟩ := timeoutWake_emits tid st _ hi
        cases heq
  | resume tid =>
      obtain ⟨h1, h2⟩ := timeoutResume_shape tid st
      refine ⟨⟨hclock1, fun g hg => ?_⟩, fun w hw => ?_, fun i hi => ?_⟩
      · have hg' : (timeoutResume tid st).1.active = some g := hg
        rcases h1 with h | h
        · exact hactive g (h ▸ hg')
        · rw [h] at hg'; cases hg'
      · rw [show (step words (Act.resume tid) st).2 = (timeoutResume tid st).2
            from rfl, h2] at hw
        cases hw
      · rw [show (step words (Act.resume tid) st).2 = (timeoutResume tid st).2
            from rfl, h2] at hi
        cases hi

lemma run_NoGen (words : List String) (acts : List Act) (gen : ℤ)
    (st : SysState) (h : NoGen gen st) :
    (∀ w, Event.timeoutNotice gen w ∉ (run words acts st).2) ∧
    (∀ i, Event.hintNotice gen i ∉ (run words acts st).2) := by
  induction acts generalizing st with
  | nil => simp [run]
  | cons a as ih =>
      obtain ⟨h1, h2, h3⟩ := step_NoGen words a gen st h
      obtain ⟨ih1, ih2⟩ := ih (step words a st).1 h1
      constructor
      · intro w hw
        simp only [run, List.mem_append] at hw
        rcases hw with hw | hw
        · exact h2 w hw
        · exact ih1 w hw
      · intro i hi
        simp only [run, List.mem_append] at hi
        rcases hi with hi | hi
        · exact h3 i hi
        · exact ih2 i hi

/-- Claim C7: the stop command on a channel with no session reports
not-active and changes nothing; on a channel with a session it cancels
the session's timeout task (cancelling an already-finished or
already-cancelled task leaves the task list untouched and is not an
error), removes the session and reports the answer, and afterwards — for
any word list and any schedule of further steps — no hint or timeout
notice tagged with that session's generation is ever emitted. -/
theorem C7_stop_semantics (st : SysState) :
    (st.active = none → stopCmd st = (st, [.notActiveNotice])) ∧
    (∀ g, st.active = some g →
      stopCmd st = ({ st with active := none,
                              tasks := cancelTask g.timeout_task st.tasks },
                    [.stoppedNotice g.start_time g.word]) ∧
      (∀ i t, g.timeout_task = some i → st.tasks.get? i = some t →
        (t.phase = .finished ∨ t.phase = .cancelled) →
        cancelTask g.timeout_task st.tasks = st.tasks) ∧
      (WF st → ∀ (words : List String) (acts : List Act),
        (∀ w, Event.timeoutNotice g.start_time w
            ∉ (run words acts (step words .stopGame st).1).2) ∧
        (∀ i, Event.hintNotice g.start_time i
            ∉ (run words acts (step words .stopGame st).1).2))) := by
  constructor
  · intro hact
    simp [stopCmd, hact]
  · intro g hg
    refine ⟨?_, ?_, ?_⟩
    · simp [stopCmd, hg]
    · intro i t hi hti hdone
      rw [List.get?_eq_getElem?] at hti
      rcases hdone with h | h <;> simp [cancelTask, hi, hti, h]
    · intro hwf words acts
      have hstep : (step words Act.stopGame st).1
          = ⟨none, cancelTask g.timeout_task st.tasks, st.scores,
             st.clock + 1⟩ := by
        simp [step, stopCmd, hg]
      have hng : NoGen g.start_time (step words Act.stopGame st).1 := by
        rw [hstep]
        refine ⟨?_, fun g' hg' => ?_⟩
        · have h := hwf g hg
          show g.start_time < st.clock + 1
          omega
        · cases hg'
      exact run_NoGen words acts g.start_time _ hng

/-- Witness for C7: stopping a 30-second game cancels its sleeping timeout
task, removes the session and reports the word; afterwards a schedule
that wakes the task, asks for a hint and resumes the task emits no
timeout notice for the stopped generation. -/
theorem C7_witness :
    stopCmd ⟨some ⟨"APPLE", "LAPEP", 0, 0, ∅, [], some 0⟩,
        [⟨0, "APPLE", .sleeping⟩], [], 30⟩
      = (⟨none, [⟨0, "APPLE", .cancelled⟩], [], 30⟩,
         [.stoppedNotice 0 "APPLE"]) ∧
    ∀ w, Event.timeoutNotice 0 w
        ∉ (run ["APPLE"] [.wake 0, .hintReq "u1" 0, .resume 0]
            (step ["APPLE"] .stopGame
              ⟨some ⟨"APPLE", "LAPEP", 0, 0, ∅, [], some 0⟩,
               [⟨0, "APPLE", .sleeping⟩], [], 30⟩).1).2 := by
  have h := (C7_stop_semantics
      ⟨some ⟨"APPLE", "LAPEP", 0, 0, ∅, [], some 0⟩,
       [⟨0, "APPLE", .sleeping⟩], [], 30⟩).2
    ⟨"APPLE", "LAPEP", 0, 0, ∅, [], some 0⟩ rfl
  refine ⟨h.1, fun w => ?_⟩
  exact (h.2.2 (by intro g hg; injection hg with h2; subst h2; decide)
    ["APPLE"] [.wake 0, .hintReq "u1" 0, .resume 0]).1 w

/-- Claim C1 (code evaluated at the failing schedule): a session of
generation 0 on APPLE whose timeout task has passed its sleep; the task
runs its generation check — which passes — and emits the time's-up notice
(suspending in the send, session still registered); the correct answer
then arrives and is evaluated during that suspension: it is late
(elapsed 62 > 60), so the too-slow verdict is also emitted and actioned.
Two terminal events are thus actioned for the same generation 0, which
the claim says can never happen. -/
theorem C1_double_terminal_emission :
    (run ["APPLE"] [.wake 0, .msg "u1" "apple" false true false]
        ⟨some ⟨"APPLE", "LAPEP", 0, 0, ∅, [], some 0⟩,
         [⟨0, "APPLE", .sleeping⟩], [], 61⟩).2
      = [.timeoutNotice 0 "APPLE", .lateNotice 0 "APPLE"] := by
  decide

/-- The per-session hint bookkeeping invariant claimed by the
specification: the hint counter equals the number of revealed indices,
every revealed index is a position of the word, and the number of
revealed indices stays within the hint budget (max 1 (len / 2) for words
longer than one letter, zero otherwise). -/
def SessionInv (g : GameSession) : Prop :=
  g.hints_given = g.revealed_indices.card ∧
  (∀ i ∈ g.revealed_indices, i < g.word.length) ∧
  g.revealed_indices.card ≤ maxHints g.word

instance (g : GameSession) : Decidable (SessionInv g) := by
  unfold SessionInv
  infer_instance

lemma maxHints_le_length (w : String) : maxHints w ≤ w.length := by
  unfold maxHints
  split <;> omega

lemma hintReveal_spec (g1 : GameSession) (p : ℕ)
    (hinv : SessionInv g1) (hlt : g1.hints_given < maxHints g1.word) :
    SessionInv (hintReveal g1 p).1 ∧
    (hintReveal g1 p).1.word = g1.word ∧
    (hintReveal g1 p).1.start_time = g1.start_time ∧
    (hintReveal g1 p).1.hint_requested_by = g1.hint_requested_by ∧
    ∃ i, i ∉ g1.revealed_indices ∧ i < g1.word.length ∧
      (hintReveal g1 p).1.revealed_indices = insert i g1.revealed_indices ∧
      (hintReveal g1 p).1.hints_given = g1.hints_given + 1 := by
  obtain ⟨hcount, hcodes, hbound⟩ := hinv
  set available := (List.range g1.word.length).filter
      (fun i => i ∉ g1.revealed_indices) with havdef
  have hav : available ≠ [] := by
    intro hav
    have hsub : Finset.range g1.word.length ⊆ g1.revealed_indices := by
      intro i hi
      by_contra hmem
      have hin : i ∈ available := by
        rw [havdef, List.mem_filter]
        exact ⟨List.mem_range.mpr (Finset.mem_range.mp hi), by simpa using hmem⟩
      rw [hav] at hin
      exact absurd hin (List.not_mem_nil i)
    have hcard : g1.word.length ≤ g1.revealed_indices.card := by
      simpa using Finset.card_le_card hsub
    have hml := maxHints_le_length g1.word
    omega
  have hlen0 : 0 < available.length := List.length_pos.mpr hav
  have hmod : p % available.length < available.length := Nat.mod_lt _ hlen0
  set idx := available.getD (p % available.length) 0 with hidxdef
  have hidxmem : idx ∈ available := by
    rw [hidxdef, List.getD_eq_getElem available 0 hmod]
    exact List.getElem_mem hmod
  rw [havdef, List.mem_filter] at hidxmem
  have hidx1 : idx < g1.word.length := List.mem_range.mp hidxmem.1
  have hidx2 : idx ∉ g1.revealed_indices := by simpa using hidxmem.2
  have heq : hintReveal g1 p
      = ({ g1 with revealed_indices := insert idx g1.revealed_indices,
                   hints_given := g1.hints_given + 1 }, []) := by
    unfold hintReveal
    rw [← havdef, if_neg hav, ← hidxdef]
    simp only [HINT_PENALTY_POINTS]
  rw [heq]
  refine ⟨⟨?_, ?_, ?_⟩, rfl, rfl, rfl, ⟨idx, hidx2, hidx1, rfl, rfl⟩⟩
  · show g1.hints_given + 1 = (insert idx g1.revealed_indices).card
    rw [Finset.card_insert_of_not_mem hidx2, hcount]
  · intro i hi
    rcases Finset.mem_insert.mp hi with h | h
    · rw [h]; exact hidx1
    · exact hcodes i h
  · show (insert idx g1.revealed_indices).card ≤ maxHints g1.word
    rw [Finset.card_insert_of_not_mem hidx2]
    omega

/-- Claim C5: running the hint command on a state whose session satisfies
the bookkeeping invariant yields a session that still satisfies it; the
word, start time and revealed set are preserved or extended (the revealed
set only grows), any newly revealed index was not previously revealed,
the hint counter tracks the reveal exactly, and for a word of at most one
letter the session is untouched (zero hints). -/
theorem C5_hint_never_repeats_and_bounded (u : String) (p : ℕ)
    (st : SysState) (g : GameSession) (hg : st.active = some g)
    (hinv : SessionInv g) :
    ∃ g', (hintCmd u p st).1.active = some g' ∧ SessionInv g' ∧
      g'.word = g.word ∧ g'.start_time = g.start_time ∧
      g.revealed_indices ⊆ g'.revealed_indices ∧
      ((g'.revealed_indices = g.revealed_indices ∧
          g'.hints_given = g.hints_given) ∨
        ∃ i, i ∉ g.revealed_indices ∧ i < g.word.length ∧
          g'.revealed_indices = insert i g.revealed_indices ∧
          g'.hints_given = g.hints_given + 1) ∧
      (g.word.length ≤ 1 → g' = g) := by
  simp only [hintCmd, hg]
  by_cases hmax : g.hints_given ≥ maxHints g.word
  · rw [if_pos hmax]
    exact ⟨g, hg, hinv, rfl, rfl, Finset.Subset.refl _,
      Or.inl ⟨rfl, rfl⟩, fun _ => rfl⟩
  · rw [if_neg hmax]
    push_neg at hmax
    set g1 := if u ∈ g.hint_requested_by then g
      else { g with hint_requested_by := u :: g.hint_requested_by } with hg1
    have hfields : g1.revealed_indices = g.revealed_indices ∧
        g1.hints_given = g.hints_given ∧ g1.word = g.word ∧
        g1.start_time = g.start_time := by
      rw [hg1]; split <;> exact ⟨rfl, rfl, rfl, rfl⟩
    obtain ⟨hrev, hhints, hword, hstart⟩ := hfields
    have hinv1 : SessionInv g1 := by
      unfold SessionInv at hinv ⊢
      rw [hrev, hhints, hword]
      exact hinv
    have hlt1 : g1.hints_given < maxHints g1.word := by
      rw [hhints, hword]; exact hmax
    obtain ⟨hinv2, hword2, hstart2, _, i, hnotmem, hilt, hins, hinc⟩ :=
      hintReveal_spec g1 p hinv1 hlt1
    refine ⟨(hintReveal g1 p).1, rfl, hinv2, by rw [hword2, hword],
      by rw [hstart2, hstart], ?_, ?_, ?_⟩
    · rw [hins, hrev]
      exact Finset.subset_insert _ _
    · refine Or.inr ⟨i, ?_, ?_, ?_, ?_⟩
      · rw [hrev] at hnotmem; exact hnotmem
      · rw [hword] at hilt; exact hilt
      · rw [hins, hrev]
      · rw [hinc, hhints]
    · intro hlen
      exfalso
      have : maxHints g.word = 0 := by
        unfold maxHints
        rw [if_neg (by omega)]
      omega

/-- Witness for C5: a session on APPLE with one hint already revealed; the
command reveals a fresh index and keeps the invariant. -/
theorem C5_witness :
    ∃ g', (hintCmd "u2" 1
        ⟨some ⟨"APPLE", "LAPEP", 0, 1, {0}, ["u1"], some 0⟩,
         [⟨0, "APPLE", .sleeping⟩], [], 30⟩).1.active = some g' ∧
      SessionInv g' ∧
      g'.word = (⟨"APPLE", "LAPEP", 0, 1, {0}, ["u1"], some 0⟩ : GameSession).word ∧
      g'.start_time = 0 ∧
      ({0} : Finset ℕ) ⊆ g'.revealed_indices ∧
      ((g'.revealed_indices = {0} ∧ g'.hints_given = 1) ∨
        ∃ i, i ∉ ({0} : Finset ℕ) ∧ i < ("APPLE" : String).length ∧
          g'.revealed_indices = insert i {0} ∧ g'.hints_given = 1 + 1) ∧
      (("APPLE" : String).length ≤ 1 →
        g' = ⟨"APPLE", "LAPEP", 0, 1, {0}, ["u1"], some 0⟩) :=
  C5_hint_never_repeats_and_bounded "u2" 1 _ _ rfl (by decide)

/-- Claim C3: a timeout firing whose generation check fails (the session is
gone, or its start time is not the generation the task was created with)
emits nothing and leaves the session map and the score store untouched;
a firing whose check passes emits exactly the time's-up notice naming the
word the task was created for, and the task's resumption after the send
removes the session. -/
theorem C3_timeout_firing (st : SysState) (tid : ℕ) (t : TimeoutTask)
    (ht : st.tasks.get? tid = some t) (hph : t.phase = .sleeping)
    (helapsed : t.gen + TIME_LIMIT_SECONDS ≤ st.clock) :
    ((∀ g, st.active = some g → g.start_time ≠ t.gen) →
      (timeoutWake tid st).2 = [] ∧
      (timeoutWake tid st).1.active = st.active ∧
      (timeoutWake tid st).1.scores = st.scores ∧
      (timeoutResume tid (timeoutWake tid st).1).2 = [] ∧
      (timeoutResume tid (timeoutWake tid st).1).1.active = st.active ∧
      (timeoutResume tid (timeoutWake tid st).1).1.scores = st.scores) ∧
    (∀ g, st.active = some g → g.start_time = t.gen →
      (timeoutWake tid st).2 = [.timeoutNotice t.gen t.word] ∧
      (timeoutResume tid (timeoutWake tid st).1).1.active = none) := by
  rw [List.get?_eq_getElem?] at ht
  have hlt : tid < st.tasks.length := by
    rcases Nat.lt_or_ge tid st.tasks.length with h | h
    · exact h
    · rw [List.getElem?_eq_none h] at ht
      exact absurd ht (by simp)
  have hset : ∀ ph : TaskPhase,
      (st.tasks.set tid { t with phase := ph })[tid]?
        = some { t with phase := ph } := by
    intro ph
    exact List.getElem?_set_self (by simpa using hlt)
  constructor
  · intro hstale
    have hwake : timeoutWake tid st
        = ({ st with tasks := st.tasks.set tid { t with phase := .finished } },
           []) := by
      cases hact : st.active with
      | none => simp [timeoutWake, ht, hph, helapsed, hact]
      | some g => simp [timeoutWake, ht, hph, helapsed, hact, hstale g hact]
    rw [hwake]
    have hres : timeoutResume tid
          ({ st with tasks := st.tasks.set tid { t with phase := .finished } }
            : SysState)
        = ({ st with tasks := st.tasks.set tid { t with phase := .finished } },
           []) := by
      simp [timeoutResume, hset TaskPhase.finished]
    rw [hres]
    exact ⟨rfl, rfl, rfl, rfl, rfl, rfl⟩
  · intro g hact hgen
    have hwake : timeoutWake tid st
        = ({ st with tasks := st.tasks.set tid { t with phase := .sending } },
           [.timeoutNotice t.gen t.word]) := by
      simp [timeoutWake, ht, hph, helapsed, hact, hgen]
    rw [hwake]
    have hres : (timeoutResume tid
          ({ st with tasks := st.tasks.set tid { t with phase := .sending } }
            : SysState)).1.active = none := by
      simp [timeoutResume, hset TaskPhase.sending]
    exact ⟨rfl, hres⟩

/-- Witness for C3: a session on APPLE whose timeout task fires at 61
seconds with a matching generation emits the time's-up notice and the
resumption removes the session. -/
theorem C3_witness :
    (timeoutWake 0 ⟨some ⟨"APPLE", "LAPEP", 0, 0, ∅, [], some 0⟩,
        [⟨0, "APPLE", .sleeping⟩], [], 61⟩).2
      = [.timeoutNotice 0 "APPLE"] ∧
    (timeoutResume 0 (timeoutWake 0 ⟨some ⟨"APPLE", "LAPEP", 0, 0, ∅, [], some 0⟩,
        [⟨0, "APPLE", .sleeping⟩], [], 61⟩).1).1.active = none :=
  (C3_timeout_firing
      ⟨some ⟨"APPLE", "LAPEP", 0, 0, ∅, [], some 0⟩,
        [⟨0, "APPLE", .sleeping⟩], [], 61⟩
      0 ⟨0, "APPLE", .sleeping⟩ rfl rfl (by decide)).2
    ⟨"APPLE", "LAPEP", 0, 0, ∅, [], some 0⟩ rfl rfl

/-- Claim C4 (code evaluated at the failing input): a correct answer
(" apple " normalises to APPLE) arriving 10 seconds in — well within the
time limit — from a user who has a hint on record reaches line 311, where
multiplying the absent config.HINT_PENALTY_POINTS raises AttributeError
out of the listener: no points are awarded, no notice is emitted, the
timeout task is not cancelled and the session is not removed, where the
claim promises a tier award and (on the late side) removal. -/
theorem C4_win_crashes_for_hinted_user :
    normalizeAnswer " apple " = "APPLE" ∧
    (10 : ℤ) - 0 ≤ TIME_LIMIT_SECONDS ∧
    "u1" ∈ (⟨"APPLE", "LAPEP", 0, 1, {0}, ["u1"], some 0⟩
      : GameSession).hint_requested_by ∧
    messageStep "u1" " apple " false true false 10
        ⟨some ⟨"APPLE", "LAPEP", 0, 1, {0}, ["u1"], some 0⟩,
         [⟨0, "APPLE", .sleeping⟩], [], 10⟩
      = (⟨some ⟨"APPLE", "LAPEP", 0, 1, {0}, ["u1"], some 0⟩,
          [⟨0, "APPLE", .sleeping⟩], [], 10⟩, []) := by
  decide

/-- Witness for C8: a 50-second-old session is reported as in progress and
nothing changes. -/
theorem C8_witness :
    unscrambleCmd ["APPLE"] 0 (fun _ l => l) 50
        ⟨some ⟨"TACO", "COTA", 0, 0, ∅, [], some 0⟩, [⟨0, "TACO", .sleeping⟩], [], 50⟩
      = (⟨some ⟨"TACO", "COTA", 0, 0, ∅, [], some 0⟩, [⟨0, "TACO", .sleeping⟩], [], 50⟩,
         [.alreadyActiveNotice "COTA"]) :=
  C8_already_active_frame _ _ _ _ _ _ rfl (by decide)

end DcHungry
